import Mathlib

/-!
Verification of the pagepouch search subsystem against its specification.

The Rust sources embedded here are `src/search.rs` (tokenizer + query parser)
and the query/creation layer of `src/db/bookmarks.rs` and `src/db/tags.rs`.
Strings are modelled as lists of characters; SQL queries are modelled by
their relational semantics over an explicit database state.
-/

set_option maxRecDepth 4000

namespace PagePouch

/-- A Rust `String` / `&str`, modelled as its list of characters. -/
abbrev Str := List Char

/-- Unicode `White_Space` characters, as used by Rust `char::is_whitespace`
(`str::trim`, `str::trim_end`). -/
def rustIsWhitespace (c : Char) : Bool :=
  c = ' ' ∨ c = '\t' ∨ c = '\n' ∨ c = '\x0b' ∨ c = '\x0c' ∨ c = '\r' ∨
  c.val = 0x85 ∨ c.val = 0xA0 ∨ c.val = 0x1680 ∨
  (0x2000 ≤ c.val ∧ c.val ≤ 0x200A) ∨
  c.val = 0x2028 ∨ c.val = 0x2029 ∨ c.val = 0x202F ∨ c.val = 0x205F ∨ c.val = 0x3000

/-- Rust `str::trim_end`. -/
def rustTrimEnd (s : Str) : Str :=
  (s.reverse.dropWhile rustIsWhitespace).reverse

/-- Rust `str::trim`. -/
def rustTrim (s : Str) : Str :=
  rustTrimEnd (s.dropWhile rustIsWhitespace)

/-- Rust `String::len`: the UTF-8 byte length. -/
def utf8Len (s : Str) : Nat :=
  (s.map Char.utf8Size).sum

/-- ASCII lower-casing of one character (the fragment of Rust
`to_lowercase` exercised by the queries modelled here). -/
def lowerChar (c : Char) : Char :=
  if 'A' ≤ c ∧ c ≤ 'Z' then Char.ofNat (c.toNat + 32) else c

/-- Lower-casing of a string (Rust `str::to_lowercase`). -/
def lowerStr (s : Str) : Str :=
  s.map lowerChar

/-- Substring containment, Rust `str::contains` with a literal pattern. -/
def isSubstr (needle hay : Str) : Bool :=
  hay.tails.any (needle.isPrefixOf ·)

/-! ### `src/search.rs`: tokens, scanner state, tokenizer -/

/-- Internal token representation during parsing (`enum Token`). -/
inductive Token where
  | Word : Str → Token
  | Phrase : Str → Token
  | Tag : Str → Token
deriving DecidableEq, Repr

/-- Individual search terms (`enum SearchTerm`). -/
inductive SearchTerm where
  | Word : Str → SearchTerm
  | Phrase : Str → SearchTerm
deriving DecidableEq, Repr

/-- Logic operation between search terms (`enum SearchLogic`). -/
inductive SearchLogic where
  | Or : SearchLogic
  | And : SearchLogic
deriving DecidableEq, Repr

/-- A parsed search query (`struct SearchQuery`). -/
structure SearchQuery where
  general_terms : List SearchTerm
  tag_filters : List Str
  logic : SearchLogic
deriving DecidableEq, Repr

/-- `SearchQuery::new()`. -/
def SearchQuery.new : SearchQuery :=
  { general_terms := [], tag_filters := [], logic := .Or }

/-- `SearchQuery::is_empty`. -/
def SearchQuery.isEmptyQ (q : SearchQuery) : Bool :=
  q.general_terms = [] ∧ q.tag_filters = []

/-- The mutable state of the scan loop in `SearchQuery::tokenize`. -/
structure ScanState where
  tokens : List Token
  buf : Str
  in_quotes : Bool
  quote_char : Option Char
  is_tag : Bool
deriving DecidableEq, Repr

/-- Initial scanner state. -/
def ScanState.init : ScanState :=
  { tokens := [], buf := [], in_quotes := false, quote_char := none, is_tag := false }

/-- Flush the buffer as `Tag`/`Word` per `is_tag` (shared by the
open-quote and whitespace arms of the scan loop). -/
def flushWordOrTag (st : ScanState) : ScanState :=
  if st.buf = [] then st
  else
    { st with
      tokens := st.tokens ++
        [if st.is_tag then Token.Tag (rustTrim st.buf) else Token.Word (rustTrim st.buf)]
      buf := []
      is_tag := false }

/-- One iteration of the character loop in `SearchQuery::tokenize`,
mirroring the Rust `match` arms in order. -/
def scanStep (st : ScanState) (ch : Char) : ScanState :=
  if (ch = '\x22' ∨ ch = '\x27') ∧ ¬st.in_quotes then
    -- Start of quoted phrase
    { flushWordOrTag st with in_quotes := true, quote_char := some ch }
  else if (ch = '\x22' ∨ ch = '\x27') ∧ st.in_quotes ∧ st.quote_char = some ch then
    -- End of quoted phrase
    { st with
      tokens := st.tokens ++ (if st.buf = [] then [] else [Token.Phrase (rustTrim st.buf)])
      buf := []
      in_quotes := false
      quote_char := none }
  else if ch = '#' ∧ ¬st.in_quotes ∧ st.buf = [] then
    -- Start of tag - the # itself is not stored
    { st with is_tag := true }
  else if (ch = ' ' ∨ ch = '\t' ∨ ch = '\n') ∧ ¬st.in_quotes then
    -- Whitespace outside quotes commits the current token
    flushWordOrTag st
  else
    { st with buf := st.buf ++ [ch] }

/-- The state after scanning the whole input. -/
def scan (input : Str) : ScanState :=
  input.foldl scanStep ScanState.init

/-- `SearchQuery::is_tag_complete`. -/
def is_tag_complete (tag_content : Str) (full_input : Str) : Bool :=
  if utf8Len tag_content < 2 then false
  else if rustTrimEnd full_input ≠ full_input then true
  else
    match (full_input.reverse.findIdx? (· = '#')).map (fun i => full_input.length - 1 - i) with
    | some pos =>
        if rustTrim (full_input.take pos) ≠ [] then decide (3 ≤ utf8Len tag_content)
        else false
    | none => false

/-- `SearchQuery::tokenize`: scan, then the final-token handling. -/
def tokenize (input : Str) : List Token :=
  let st := scan input
  if st.buf = [] then st.tokens
  else if st.in_quotes then st.tokens ++ [Token.Phrase (rustTrim st.buf)]
  else if st.is_tag then
    if is_tag_complete st.buf input then st.tokens ++ [Token.Tag (rustTrim st.buf)]
    else st.tokens
  else st.tokens ++ [Token.Word (rustTrim st.buf)]

/-- The per-token step of the loop in `SearchQuery::parse` that fills
`general_terms`: connective keywords are dropped. -/
def termOfToken : Token → Option SearchTerm
  | .Word w =>
      if lowerStr w = "and".data ∨ lowerStr w = "or".data then none
      else some (.Word w)
  | .Phrase p => some (.Phrase p)
  | .Tag _ => none

/-- The per-token step of the loop in `SearchQuery::parse` that fills
`tag_filters`. -/
def tagOfToken : Token → Option Str
  | .Tag t => some t
  | _ => none

/-- `SearchQuery::parse`. -/
def parse (input : Str) : SearchQuery :=
  if rustTrim input = [] then SearchQuery.new
  else
    let lower := lowerStr input
    let logic : SearchLogic :=
      if isSubstr " and ".data lower then .And
      else if isSubstr " or ".data lower then .Or
      else .Or
    let toks := tokenize input
    { general_terms := toks.filterMap termOfToken
      tag_filters := toks.filterMap tagOfToken
      logic := logic }

/-! ### `format_timestamp` (`src/db/bookmarks.rs`)

The Rust code converts the Unix timestamp to a UTC `DateTime` (chrono)
and renders it with the format string `"%b %d, %Y"`.  The proleptic
Gregorian civil date of a day number is computed here with the standard
era-based algorithm, which is extensionally equal to chrono's calendar. -/

/-- Civil (proleptic Gregorian) date `(year, month, day)` of a day count
relative to 1970-01-01. -/
def civilFromDays (z0 : Int) : Int × Int × Int :=
  let z := z0 + 719468
  let era := z / 146097
  let doe := z - era * 146097
  let yoe := (doe - doe / 1460 + doe / 36524 - doe / 146096) / 365
  let y := yoe + era * 400
  let doy := doe - (365 * yoe + yoe / 4 - yoe / 100)
  let mp := (5 * doy + 2) / 153
  let d := doy - (153 * mp + 2) / 5 + 1
  let m := mp + (if mp < 10 then 3 else -9)
  (y + (if m ≤ 2 then 1 else 0), m, d)

/-- chrono's `%b`: abbreviated English month name. -/
def monthAbbrev (m : Int) : Str :=
  (if m = 1 then "Jan" else if m = 2 then "Feb" else if m = 3 then "Mar"
   else if m = 4 then "Apr" else if m = 5 then "May" else if m = 6 then "Jun"
   else if m = 7 then "Jul" else if m = 8 then "Aug" else if m = 9 then "Sep"
   else if m = 10 then "Oct" else if m = 11 then "Nov" else if m = 12 then "Dec"
   else "???").data

/-- The decimal digit character of `n` (defined for `n ≤ 9`). -/
def digitChar : Nat → Char
  | 0 => '0'
  | 1 => '1'
  | 2 => '2'
  | 3 => '3'
  | 4 => '4'
  | 5 => '5'
  | 6 => '6'
  | 7 => '7'
  | 8 => '8'
  | _ => '9'

/-- Decimal digits of a natural number, with explicit fuel so the
recursion is structural. -/
def natDigitsAux : Nat → Nat → Str
  | 0, _ => []
  | fuel + 1, n =>
      if n < 10 then [digitChar n]
      else natDigitsAux fuel (n / 10) ++ [digitChar (n % 10)]

/-- Decimal rendering of a natural number. -/
def natStr (n : Nat) : Str :=
  natDigitsAux (n + 1) n

/-- Decimal rendering of an integer. -/
def intStr (i : Int) : Str :=
  if i < 0 then '-' :: natStr (-i).toNat else natStr i.toNat

/-- Left-pad with zeros to the given width. -/
def padZeros (width : Nat) (s : Str) : Str :=
  List.replicate (width - s.length) '0' ++ s

/-- chrono's `%d`: day of month, zero-padded to two digits. -/
def pad2 (d : Int) : Str :=
  if 0 ≤ d then padZeros 2 (natStr d.toNat) else intStr d

/-- chrono's `%Y`: proleptic Gregorian year, zero-padded to 4 digits,
with a sign for years outside 0..9999. -/
def yearStr (y : Int) : Str :=
  if y < 0 then '-' :: padZeros 4 (natStr (-y).toNat)
  else if 9999 < y then '+' :: natStr y.toNat
  else padZeros 4 (natStr y.toNat)

/-- Render a civil date with chrono's format string `"%b %d, %Y"`. -/
def renderDate (y m d : Int) : Str :=
  monthAbbrev m ++ [' '] ++ pad2 d ++ [','] ++ [' '] ++ yearStr y

/-- `format_timestamp` (`src/db/bookmarks.rs`): the UTC civil date of the
timestamp, formatted `"%b %d, %Y"`. -/
def format_timestamp (timestamp : Int) : Str :=
  let date := civilFromDays (timestamp / 86400)
  renderDate date.1 date.2.1 date.2.2

/-- Modelled from the spec: the recency label §4.4 / claim C2 describe —
"now" for negative elapsed time, else whole days / hours / minutes by
floor division with singular/plural phrasing.  (No such computation
exists in the source; this definition exists only to be compared with
`format_timestamp`.) -/
def recencyLabelSpec (elapsed : Int) : Str :=
  if elapsed < 0 then "now".data
  else
    let days := elapsed / 86400
    let hours := elapsed / 3600
    let minutes := elapsed / 60
    if 1 ≤ days then
      if days = 1 then "1 day ago".data else intStr days ++ " days ago".data
    else if 1 ≤ hours then
      if hours = 1 then "1 hour ago".data else intStr hours ++ " hours ago".data
    else if 1 ≤ minutes then
      if minutes = 1 then "1 minute ago".data else intStr minutes ++ " minutes ago".data
    else "now".data

/-! ### Database model (`src/db/bookmarks.rs`, `src/db/tags.rs`)

SQLite is the storage collaborator.  A database state is the contents of
the four relevant tables; SQL queries are modelled by their relational
semantics.  `LIKE '%w%'` (applied by the code to metacharacter-free
search words) is ASCII-case-insensitive substring containment;
`instr(f, p) > 0` is case-sensitive substring containment; comparisons
with SQL `NULL` (absent description) are false. -/

/-- A row of the `bookmarks` table (joined column `username` is looked
up through `users`). -/
structure Item where
  bookmark_id : Nat
  user_id : Nat
  url : Str
  title : Str
  description : Option Str
  created_at : Int
  is_archived : Bool
deriving DecidableEq, Repr

/-- The database state: `bookmarks`, `users` (id, username), `tags`
(id, name), `bookmark_tags`, plus the id sequences. -/
structure Db where
  items : List Item
  users : List (Nat × Str)
  tags : List (Nat × Str)
  bookmark_tags : List (Nat × Nat)
  next_bookmark_id : Nat
  next_tag_id : Nat
deriving DecidableEq, Repr

/-- `struct BookmarkWithTags` (tag list reduced to the names, the only
field populated by the code). -/
structure BookmarkWithTags where
  bookmark_id : Nat
  url : Str
  title : Str
  description : Option Str
  created_at : Int
  formatted_date : Str
  created_by : Str
  tags : List Str
deriving DecidableEq, Repr

/-- `join users u on b.user_id = u.user_id`: the username of a user id. -/
def lookupUser (db : Db) (uid : Nat) : Option Str :=
  (db.users.find? (fun u => decide (u.1 = uid))).map (·.2)

/-- The tag name of a tag id (`join tags t on bt.tag_id = t.tag_id`). -/
def lookupTag (db : Db) (tid : Nat) : Option Str :=
  (db.tags.find? (fun t => decide (t.1 = tid))).map (·.2)

/-- The (unsorted) names of the tags associated with a bookmark. -/
def rawTagNames (db : Db) (bid : Nat) : List Str :=
  (db.bookmark_tags.filter (fun bt => decide (bt.1 = bid))).filterMap
    (fun bt => lookupTag db bt.2)

/-- SQLite `BINARY` collation: lexicographic order on code points
(equal to UTF-8 byte order). -/
def strLe (a b : Str) : Bool :=
  match a, b with
  | [], _ => true
  | _ :: _, [] => false
  | x :: xs, y :: ys => if x.val = y.val then strLe xs ys else decide (x.val < y.val)

/-- Insert into a descending-by-`created_at` sorted list (stable). -/
def insertByCreatedDesc (x : Item) : List Item → List Item
  | [] => [x]
  | y :: ys =>
      if y.created_at < x.created_at then x :: y :: ys
      else y :: insertByCreatedDesc x ys

/-- `order by b.created_at desc` (stable sort). -/
def sortByCreatedDesc : List Item → List Item
  | [] => []
  | x :: xs => insertByCreatedDesc x (sortByCreatedDesc xs)

/-- Insert into an ascending sorted list of strings (stable). -/
def insertStrAsc (x : Str) : List Str → List Str
  | [] => [x]
  | y :: ys => if strLe x y then x :: y :: ys else y :: insertStrAsc x ys

/-- `order by t.name` (stable sort). -/
def sortStrAsc : List Str → List Str
  | [] => []
  | x :: xs => insertStrAsc x (sortStrAsc xs)

/-- `limit ? offset ?`. -/
def paginate (limit offset : Nat) (l : List α) : List α :=
  (l.drop offset).take limit

/-- The per-bookmark tag query of `build_bookmark_results` (and of the
listing functions): associated tag names ordered by name. -/
def tagNamesOf (db : Db) (bid : Nat) : List Str :=
  sortStrAsc (rawTagNames db bid)

/-- Assemble one `BookmarkWithTags` row. -/
def toBookmark (db : Db) (b : Item) : BookmarkWithTags :=
  { bookmark_id := b.bookmark_id
    url := b.url
    title := b.title
    description := b.description
    created_at := b.created_at
    formatted_date := format_timestamp b.created_at
    created_by := (lookupUser db b.user_id).getD []
    tags := tagNamesOf db b.bookmark_id }

/-- `build_bookmark_results`. -/
def buildBookmarkResults (db : Db) (rows : List Item) : List BookmarkWithTags :=
  rows.map (toBookmark db)

/-- `LIKE '%w%'` with SQLite's default ASCII-case-insensitive `LIKE`. -/
def likeSub (w text : Str) : Bool :=
  isSubstr (lowerStr w) (lowerStr text)

/-- `instr(text, p) > 0`: case-sensitive substring containment. -/
def instrSub (p text : Str) : Bool :=
  isSubstr p text

/-- A `LIKE` test against a nullable column (`NULL` compares false). -/
def optLike (w : Str) : Option Str → Bool
  | none => false
  | some t => likeSub w t

/-- An `instr` test against a nullable column. -/
def optInstr (p : Str) : Option Str → Bool
  | none => false
  | some t => instrSub p t

/-- `b.title like ? or b.description like ? or b.url like ?`. -/
def wordFieldsMatch (b : Item) (w : Str) : Bool :=
  likeSub w b.title || optLike w b.description || likeSub w b.url

/-- The `instr` variant over the bookmark's own fields. -/
def phraseFieldsMatch (b : Item) (p : Str) : Bool :=
  instrSub p b.title || optInstr p b.description || instrSub p b.url

/-- `... or t.name like ?` over the joined tags (false when the left
join produces no tag row). -/
def anyTagLike (db : Db) (bid : Nat) (w : Str) : Bool :=
  (rawTagNames db bid).any (likeSub w)

/-- The `instr` variant over the joined tag names. -/
def anyTagInstr (db : Db) (bid : Nat) (p : Str) : Bool :=
  (rawTagNames db bid).any (instrSub p)

/-- The full single-term condition (fields OR any associated tag name),
per term kind: `LIKE '%w%'` for words, `instr` for phrases. -/
def termMatches (db : Db) (b : Item) : SearchTerm → Bool
  | .Word w => wordFieldsMatch b w || anyTagLike db b.bookmark_id w
  | .Phrase p => phraseFieldsMatch b p || anyTagInstr db b.bookmark_id p

/-- `where b.user_id = ? and b.is_archived = 0` with the `users` inner
join. -/
def ownerRows (db : Db) (u : Nat) : List Item :=
  db.items.filter (fun b => decide (b.user_id = u) && !b.is_archived && (lookupUser db b.user_id).isSome)

/-- `get_user_bookmarks`. -/
def getUserBookmarks (db : Db) (u : Nat) (limit offset : Nat) : List BookmarkWithTags :=
  buildBookmarkResults db (paginate limit offset (sortByCreatedDesc (ownerRows db u)))

/-- `search_user_bookmarks` (legacy: `LIKE '%s%'` across title,
description, URL and tag name). -/
def searchUserBookmarks (db : Db) (u : Nat) (s : Str) (limit offset : Nat) : List BookmarkWithTags :=
  buildBookmarkResults db (paginate limit offset (sortByCreatedDesc
    ((ownerRows db u).filter (fun b => wordFieldsMatch b s || anyTagLike db b.bookmark_id s))))

/-- `search_single_term`. -/
def searchSingleTerm (db : Db) (u : Nat) (t : SearchTerm) (limit offset : Nat) : List BookmarkWithTags :=
  buildBookmarkResults db (paginate limit offset (sortByCreatedDesc
    ((ownerRows db u).filter (fun b => termMatches db b t))))

/-- `search_two_terms_or`. -/
def searchTwoTermsOr (db : Db) (u : Nat) (t1 t2 : SearchTerm) (limit offset : Nat) : List BookmarkWithTags :=
  buildBookmarkResults db (paginate limit offset (sortByCreatedDesc
    ((ownerRows db u).filter (fun b => termMatches db b t1 || termMatches db b t2))))

/-- `search_multiple_terms_and`: one existence check per term, all
required. -/
def searchMultipleTermsAnd (db : Db) (u : Nat) (ts : List SearchTerm) (limit offset : Nat) : List BookmarkWithTags :=
  if ts = [] then getUserBookmarks db u limit offset
  else
    buildBookmarkResults db (paginate limit offset (sortByCreatedDesc
      ((ownerRows db u).filter (fun b => ts.all (termMatches db b)))))

/-- `get_user_bookmarks_by_tag`: join through `bookmark_tags`/`tags`
with `t.name like '%tag%'`; the join has no `distinct`, so a bookmark
appears once per matching tag. -/
def getUserBookmarksByTag (db : Db) (u : Nat) (tag : Str) (limit offset : Nat) : List BookmarkWithTags :=
  buildBookmarkResults db (paginate limit offset (sortByCreatedDesc
    ((ownerRows db u).flatMap (fun b =>
      ((rawTagNames db b.bookmark_id).filter (likeSub tag)).map (fun _ => b)))))

/-- The `bookmark_tags join tags` rows whose tag name `LIKE`-matches at
least one filter pattern (the inner subquery of `search_by_tags_only`,
not restricted to any owner). -/
def matchedJoinRows (db : Db) (pats : List Str) : List (Nat × Nat) :=
  db.bookmark_tags.filter (fun bt =>
    db.tags.any (fun t => decide (t.1 = bt.2) && pats.any (fun p => likeSub p t.2)))

/-- `count(distinct t.tag_id)` of the matched join rows of one bookmark. -/
def distinctMatchedCount (db : Db) (pats : List Str) (bid : Nat) : Nat :=
  (((matchedJoinRows db pats).filter (fun r => decide (r.1 = bid))).map (·.2)).dedup.length

/-- The `group by bt.bookmark_id having count(distinct t.tag_id) >= ?`
subquery: the bookmark ids appearing in the matched join whose distinct
matched tag count reaches `n`. -/
def qualifyingIds (db : Db) (pats : List Str) (n : Nat) : List Nat :=
  (((matchedJoinRows db pats).map (·.1)).dedup).filter
    (fun bid => decide (n ≤ distinctMatchedCount db pats bid))

/-- `search_by_tags_only`. -/
def searchByTagsOnly (db : Db) (u : Nat) (tag_names : List Str) (limit offset : Nat) : List BookmarkWithTags :=
  match tag_names with
  | [] => getUserBookmarks db u limit offset
  | [tag] => getUserBookmarksByTag db u tag limit offset
  | _ =>
      buildBookmarkResults db (paginate limit offset (sortByCreatedDesc
        ((ownerRows db u).filter
          (fun b => decide (b.bookmark_id ∈ qualifyingIds db tag_names tag_names.length)))))

/-- `filter_bookmarks_by_tags`: keep bookmarks whose tag-name set
fuzzy-contains every required tag (lower-cased substring). -/
def filter_bookmarks_by_tags (bookmarks : List BookmarkWithTags) (required_tags : List Str) : List BookmarkWithTags :=
  if required_tags = [] then bookmarks
  else
    bookmarks.filter (fun b =>
      required_tags.all (fun req => b.tags.any (fun tn => isSubstr (lowerStr req) (lowerStr tn))))

/-- `impl fmt::Display for SearchTerm`: words print bare, phrases print
surrounded by double quotes. -/
def termDisplay : SearchTerm → Str
  | .Word w => w
  | .Phrase p => '\x22' :: (p ++ ['\x22'])

/-- The fallback's joined search string: term displays joined by one
space. -/
def joinedTerms (ts : List SearchTerm) : Str :=
  List.intercalate [' '] (ts.map termDisplay)

/-- The strategy-selection `match` of `search_user_bookmarks_advanced`
(the part producing `base_results`). -/
def baseStrategy (db : Db) (u : Nat) (q : SearchQuery) (limit offset : Nat) : List BookmarkWithTags :=
  match q.logic, q.general_terms with
  | .Or, [t] => searchSingleTerm db u t limit offset
  | .Or, [t1, t2] => searchTwoTermsOr db u t1 t2 limit offset
  | .And, ts =>
      if 2 ≤ ts.length then searchMultipleTermsAnd db u ts limit offset
      else searchUserBookmarks db u (joinedTerms ts) limit offset
  | .Or, ts => searchUserBookmarks db u (joinedTerms ts) limit offset

/-- `search_user_bookmarks_advanced`. -/
def searchAdvanced (db : Db) (u : Nat) (q : SearchQuery) (limit offset : Nat) : List BookmarkWithTags :=
  if q.isEmptyQ then getUserBookmarks db u limit offset
  else if q.general_terms = [] ∧ q.tag_filters ≠ [] then
    searchByTagsOnly db u q.tag_filters limit offset
  else
    let base := baseStrategy db u q limit offset
    if q.tag_filters = [] then base
    else filter_bookmarks_by_tags base q.tag_filters

/-! ### `create_bookmark` / `get_or_create_tag`

The Rust code issues each SQL statement directly on the connection pool
(SQLite autocommit) — no transaction is ever begun.  Statement failure
is modelled by a fault schedule: one `Bool` per executed SQL statement,
`true` meaning that statement's `await?` errors.  A completed statement
persists immediately, so an error return carries the state as already
modified by the earlier statements. -/

/-- Consume the next scheduled fault (no schedule left = success). -/
def takeFault : List Bool → Bool × List Bool
  | [] => (false, [])
  | f :: fs => (f, fs)

/-- Whether an operation result is the error case. -/
def isErr : Except Unit Nat → Bool
  | .error _ => true
  | .ok _ => false

/-- `get_or_create_tag`: normalize (trim + lowercase), select, insert if
absent.  Two fallible statements at most. -/
def getOrCreateTag (db : Db) (faults : List Bool) (name : Str) :
    Db × List Bool × Except Unit Nat :=
  let normalized := lowerStr (rustTrim name)
  let (f1, fs) := takeFault faults
  if f1 then (db, fs, .error ())
  else
    match db.tags.find? (fun t => decide (t.2 = normalized)) with
    | some t => (db, fs, .ok t.1)
    | none =>
        let (f2, fs2) := takeFault fs
        if f2 then (db, fs2, .error ())
        else
          let tid := db.next_tag_id
          ({ db with tags := db.tags ++ [(tid, normalized)], next_tag_id := tid + 1 },
           fs2, .ok tid)

/-- The tag loop of `create_bookmark`: skip empty-after-trim names, else
get-or-create the tag and insert the association. -/
def linkTags (db : Db) (faults : List Bool) (bid : Nat) :
    List Str → Db × Except Unit Unit
  | [] => (db, .ok ())
  | tn :: rest =>
      if rustTrim tn = [] then linkTags db faults bid rest
      else
        match getOrCreateTag db faults tn with
        | (db1, _fs, .error _) => (db1, .error ())
        | (db1, fs, .ok tid) =>
            let (f, fs2) := takeFault fs
            if f then (db1, .error ())
            else
              linkTags { db1 with bookmark_tags := db1.bookmark_tags ++ [(bid, tid)] }
                fs2 bid rest

/-- `create_bookmark`: insert the bookmark row, then process the tags.
`now` is the storage default for `created_at`. -/
def createBookmark (db : Db) (faults : List Bool) (u : Nat) (url title : Str)
    (description : Option Str) (tag_names : List Str) (now : Int) :
    Db × Except Unit Nat :=
  let (f, fs) := takeFault faults
  if f then (db, .error ())
  else
    let bid := db.next_bookmark_id
    let db1 : Db :=
      { db with
        items := db.items ++
          [{ bookmark_id := bid, user_id := u, url := url, title := title,
             description := description, created_at := now, is_archived := false }]
        next_bookmark_id := bid + 1 }
    match linkTags db1 fs bid tag_names with
    | (db2, .ok _) => (db2, .ok bid)
    | (db2, .error _) => (db2, .error ())

/-- The string content of a search term. -/
def termContent : SearchTerm → Str
  | .Word w => w
  | .Phrase p => p

/-- The string content of a token. -/
def tokContent : Token → Str
  | .Word w => w
  | .Phrase p => p
  | .Tag t => t

/-! ### Concrete database instances used by the claim theorems -/

/-- An empty database with one registered user, for the creation run. -/
def exCreateDb : Db :=
  { items := [], users := [(1, "u".data)], tags := [], bookmark_tags := [],
    next_bookmark_id := 1, next_tag_id := 1 }

/-- Newer item: title matches "rust", tagged only "web". -/
def exItemA : Item :=
  { bookmark_id := 1, user_id := 1, url := "u1".data, title := "alpha rust".data,
    description := none, created_at := 100, is_archived := false }

/-- Older item: title matches "rust", tagged "prog". -/
def exItemB : Item :=
  { bookmark_id := 2, user_id := 1, url := "u2".data, title := "beta rust".data,
    description := none, created_at := 50, is_archived := false }

/-- Two matching items of which only the older one carries the filtered
tag: demonstrates the page-then-filter shortfall. -/
def exPageDb : Db :=
  { items := [exItemA, exItemB], users := [(1, "u".data)],
    tags := [(1, "web".data), (2, "prog".data)], bookmark_tags := [(1, 1), (2, 2)],
    next_bookmark_id := 3, next_tag_id := 3 }

/-- One general term plus one tag filter. -/
def exPageQuery : SearchQuery :=
  { general_terms := [.Word "rust".data], tag_filters := ["prog".data], logic := .Or }

/-- One item tagged "q1" and "q2": pattern "p" matches neither tag, yet
the distinct-count threshold 2 is met through pattern "q" alone. -/
def exTagDb : Db :=
  { items := [{ bookmark_id := 1, user_id := 1, url := "u".data, title := "t".data,
                description := none, created_at := 10, is_archived := false }],
    users := [(1, "u".data)], tags := [(1, "q1".data), (2, "q2".data)],
    bookmark_tags := [(1, 1), (1, 2)], next_bookmark_id := 2, next_tag_id := 3 }

/-! ## Claim theorems -/

/-- C1: `create_bookmark` issues its inserts directly on the pool with no
transaction, so the claimed atomicity fails: with the bookmark insert,
tag select and tag insert succeeding and the `bookmark_tags` association
insert failing, the call errors yet the bookmark row (and the created
tag) remain persisted with no association — the claimed rollback never
happens. -/
theorem C1_create_bookmark_not_atomic :
    isErr (createBookmark exCreateDb [false, false, false, true] 1
      "http://e".data "t".data none ["rust".data] 0).2 = true
    ∧ (createBookmark exCreateDb [false, false, false, true] 1
        "http://e".data "t".data none ["rust".data] 0).1.items.length = 1
    ∧ (createBookmark exCreateDb [false, false, false, true] 1
        "http://e".data "t".data none ["rust".data] 0).1.tags.length = 1
    ∧ (createBookmark exCreateDb [false, false, false, true] 1
        "http://e".data "t".data none ["rust".data] 0).1.bookmark_tags = [] := by
  decide

/-- C2 counterexample: `format_timestamp` renders an absolute calendar
date (`"%b %d, %Y"`), not the recency label the claim describes: at
timestamp 0 it yields "Jan 01, 1970", while the claimed labelling yields
"now" for elapsed 0 (and "1 day ago" for elapsed 90000, which also
differs from the code's output at that timestamp). -/
theorem C2_format_timestamp_counterexample :
    format_timestamp 0 = "Jan 01, 1970".data
    ∧ recencyLabelSpec 0 = "now".data
    ∧ format_timestamp 0 ≠ recencyLabelSpec 0
    ∧ recencyLabelSpec 90000 = "1 day ago".data
    ∧ format_timestamp 90000 = "Jan 02, 1970".data
    ∧ format_timestamp 90000 ≠ recencyLabelSpec 90000 := by
  decide

/-! ### Lemmas and amended theorem for C2 (`format_timestamp` renders an
absolute calendar date, never a recency label) -/

/-- Digit characters are never a comma. -/
theorem digitChar_ne_comma (n : Nat) : digitChar n ≠ ',' := by
  rcases n with _ | _ | _ | _ | _ | _ | _ | _ | _ | m <;>
    first
      | decide
      | exact (by decide : ('9' : Char) ≠ ',')

/-- Decimal digit strings contain no comma. -/
theorem comma_not_mem_natDigitsAux (fuel : Nat) : ∀ n, ',' ∉ natDigitsAux fuel n := by
  induction fuel with
  | zero => intro n; simp [natDigitsAux]
  | succ f ih =>
      intro n
      rw [natDigitsAux]
      split
      · simp only [List.mem_singleton]
        exact fun h => digitChar_ne_comma n h.symm
      · simp only [List.mem_append, List.mem_singleton]
        rintro (h | h)
        · exact ih _ h
        · exact digitChar_ne_comma _ h.symm

/-- `intStr` contains no comma. -/
theorem comma_not_mem_intStr (i : Int) : ',' ∉ intStr i := by
  rw [intStr]
  split
  · simp only [List.mem_cons]
    rintro (h | h)
    · exact absurd h (by decide)
    · exact comma_not_mem_natDigitsAux _ _ h
  · exact comma_not_mem_natDigitsAux _ _

/-- The spec-modelled recency label never contains a comma. -/
theorem comma_not_mem_recencyLabelSpec (e : Int) : ',' ∉ recencyLabelSpec e := by
  simp only [recencyLabelSpec]
  split_ifs <;>
    first
      | decide
      | (simp only [List.mem_append]
         rintro (h | h)
         · exact comma_not_mem_intStr _ h
         · exact absurd h (by decide))

/-- The code's formatted date always contains the comma of
`"%b %d, %Y"`. -/
theorem comma_mem_format_timestamp (ts : Int) : ',' ∈ format_timestamp ts := by
  simp [format_timestamp, renderDate, List.mem_append]

/-- C2 (amended): `format_timestamp` renders the absolute calendar date
of the timestamp's UTC day in the `"%b %d, %Y"` format: it depends only
on the UTC day number, it never equals any recency label of the claimed
shape (for any elapsed time), and it takes the documented values at the
epoch, at day boundaries, on a leap day and at the end of year 9999. -/
theorem C2_format_timestamp_absolute_date (a b e : Int) (hday : a / 86400 = b / 86400) :
    format_timestamp a = format_timestamp b
    ∧ format_timestamp a ≠ recencyLabelSpec e
    ∧ format_timestamp 0 = "Jan 01, 1970".data
    ∧ format_timestamp 86399 = "Jan 01, 1970".data
    ∧ format_timestamp 86400 = "Jan 02, 1970".data
    ∧ format_timestamp 951782400 = "Feb 29, 2000".data
    ∧ format_timestamp 253402300799 = "Dec 31, 9999".data := by
  refine ⟨?_, ?_, by decide, by decide, by decide, by decide, by decide⟩
  · rw [format_timestamp, format_timestamp, hday]
  · intro h
    have hc := comma_mem_format_timestamp a
    rw [h] at hc
    exact comma_not_mem_recencyLabelSpec e hc

/-- C2 amended-claim witness: two timestamps of the same UTC day get the
same label, and it is not the recency label of elapsed 0. -/
theorem C2_format_timestamp_absolute_date_witness :
    format_timestamp 0 = format_timestamp 86399
    ∧ format_timestamp 0 ≠ recencyLabelSpec 0 :=
  ⟨(C2_format_timestamp_absolute_date 0 86399 0 (by decide)).1,
   (C2_format_timestamp_absolute_date 0 86399 0 (by decide)).2.1⟩

/-- C7: for a non-blank input, the parsed logic is `And` exactly when the
lower-cased input contains the substring " and "; otherwise the logic is
`Or` (an explicit " or " merely confirms the default). -/
theorem C7_and_iff_contains (s : Str) (h : rustTrim s ≠ []) :
    ((parse s).logic = .And ↔ isSubstr " and ".data (lowerStr s) = true)
    ∧ (isSubstr " and ".data (lowerStr s) = false → (parse s).logic = .Or) := by
  rw [parse, if_neg h]
  cases hc : isSubstr " and ".data (lowerStr s) with
  | true => simp [hc]
  | false =>
      cases hc2 : isSubstr " or ".data (lowerStr s) <;> simp [hc, hc2]

/-- C7 witness at a concrete input containing " and ". -/
theorem C7_and_iff_contains_witness :
    ((parse "rust and prog".data).logic = .And ↔
      isSubstr " and ".data (lowerStr "rust and prog".data) = true) :=
  (C7_and_iff_contains "rust and prog".data (by decide)).1

/-- C10 counterexample: a quoted span containing only whitespace does
emit a token — the empty `Phrase` — because the non-emptiness check in
the tokenizer runs before trimming. -/
theorem C10_whitespace_phrase_counterexample :
    (parse "\x22 \x22".data).general_terms = [SearchTerm.Phrase []]
    ∧ (parse "\x22 \x22".data).general_terms ≠ [] := by
  decide

/-- C3: when the scan ends outside quotes with `is_tag` set and a
non-empty buffer, the trailing fragment is emitted as a `Tag` exactly
when `is_tag_complete` holds and is otherwise dropped entirely; in
particular `parse "#rust #we"` keeps only the completed tag "rust". -/
theorem C3_trailing_tag_heuristic (s : Str)
    (h1 : (scan s).is_tag = true) (h2 : (scan s).in_quotes = false) (h3 : (scan s).buf ≠ []) :
    tokenize s = (scan s).tokens ++
      (if is_tag_complete (scan s).buf s then [Token.Tag (rustTrim (scan s).buf)] else [])
    ∧ (parse "#rust #we".data).tag_filters = ["rust".data]
    ∧ (parse "#rust #we".data).general_terms = [] := by
  refine ⟨?_, by decide, by decide⟩
  rw [tokenize]
  simp only [h1, h2, h3, if_neg, if_true, Bool.false_eq_true, if_false]
  split <;> simp

/-- C3 witness: the input "#rust #we" itself ends the scan in the
hypothesised state, and its incomplete trailing tag is dropped. -/
theorem C3_trailing_tag_heuristic_witness :
    (parse "#rust #we".data).tag_filters = ["rust".data] :=
  (C3_trailing_tag_heuristic "#rust #we".data (by decide) (by decide) (by decide)).2.1

/-! ### Lemmas for C8 (parse is total and well-behaved on all inputs) -/

/-- A scan step emits at most one token. -/
theorem scanStep_tokens_le (st : ScanState) (c : Char) :
    (scanStep st c).tokens.length ≤ st.tokens.length + 1 := by
  rw [scanStep]
  unfold flushWordOrTag
  split_ifs <;> simp

/-- The scan loop emits at most one token per character. -/
theorem foldl_scanStep_tokens_le (l : Str) (st : ScanState) :
    (l.foldl scanStep st).tokens.length ≤ st.tokens.length + l.length := by
  induction l generalizing st with
  | nil => simp
  | cons c cs ih =>
      calc ((c :: cs).foldl scanStep st).tokens.length
          = (cs.foldl scanStep (scanStep st c)).tokens.length := rfl
        _ ≤ (scanStep st c).tokens.length + cs.length := ih _
        _ ≤ st.tokens.length + 1 + cs.length := by
            have := scanStep_tokens_le st c; omega
        _ = st.tokens.length + (c :: cs).length := by simp; omega

/-- The tokenizer emits at most `|input| + 1` tokens. -/
theorem tokenize_length_le (s : Str) : (tokenize s).length ≤ s.length + 1 := by
  have h : (scan s).tokens.length ≤ s.length := by
    simpa [scan, ScanState.init] using foldl_scanStep_tokens_le s ScanState.init
  rw [tokenize]
  split
  · omega
  · split
    · simp; omega
    · split
      · split
        · simp; omega
        · omega
      · simp; omega

/-- Each token feeds at most one of the two output lists of `parse`. -/
theorem filterMap_term_tag_le (l : List Token) :
    (l.filterMap termOfToken).length + (l.filterMap tagOfToken).length ≤ l.length := by
  induction l with
  | nil => simp
  | cons t ts ih =>
      cases t with
      | Word w =>
          by_cases hw : lowerStr w = "and".data ∨ lowerStr w = "or".data <;>
            simp [termOfToken, tagOfToken, hw] <;> omega
      | Phrase p => simp [termOfToken, tagOfToken]; omega
      | Tag t => simp [termOfToken, tagOfToken]; omega

/-- C8: `parse` is a total function returning a bounded `SearchQuery` on
every input, and degrades gracefully on the adversarial inputs the spec
lists: the empty string, strings of only quote characters, a lone "#",
an unterminated quote (whose remainder becomes a `Phrase`) and arbitrary
Unicode. -/
theorem C8_parse_total (s : Str) :
    (parse s).general_terms.length + (parse s).tag_filters.length ≤ s.length + 1
    ∧ parse [] = SearchQuery.new
    ∧ parse "\x22\x22\x27\x27".data = SearchQuery.new
    ∧ parse "#".data = SearchQuery.new
    ∧ parse "\x22abc".data =
        { general_terms := [.Phrase "abc".data], tag_filters := [], logic := .Or }
    ∧ parse "héllo🚀".data =
        { general_terms := [.Word "héllo🚀".data], tag_filters := [], logic := .Or } := by
  refine ⟨?_, by decide, by decide, by decide, by decide, by decide⟩
  rw [parse]
  split
  · simp [SearchQuery.new]
  · have h1 := filterMap_term_tag_le (tokenize s)
    have h2 := tokenize_length_le s
    simp only []
    omega

/-! ### Lemmas for C10 (every emitted token is whitespace-trimmed) -/

/-- `rustTrim` in terms of `List.rdropWhile`. -/
theorem rustTrim_eq_rdropWhile (l : Str) :
    rustTrim l = (l.dropWhile rustIsWhitespace).rdropWhile rustIsWhitespace := rfl

/-- Left-trimming again after a full trim changes nothing. -/
theorem dropWhile_rdropWhile_dropWhile (p : Char → Bool) (l : Str) :
    ((l.dropWhile p).rdropWhile p).dropWhile p = (l.dropWhile p).rdropWhile p := by
  rw [List.dropWhile_eq_self_iff]
  intro hl
  obtain ⟨t, ht⟩ := List.rdropWhile_prefix p (l.dropWhile p)
  obtain ⟨a, as, hcons⟩ := List.exists_cons_of_ne_nil (List.length_pos.mp hl)
  have hd : l.dropWhile p = a :: (as ++ t) := by rw [← ht, hcons]; rfl
  have hlen : 0 < (l.dropWhile p).length := by rw [hd]; simp
  have hna := List.dropWhile_get_zero_not p l hlen
  have hga : (l.dropWhile p).get ⟨0, hlen⟩ = a := by simp [hd]
  rw [hga] at hna
  simp [hcons, hna]

/-- `rustTrim` is idempotent. -/
theorem rustTrim_idem (l : Str) : rustTrim (rustTrim l) = rustTrim l := by
  rw [rustTrim_eq_rdropWhile l, rustTrim_eq_rdropWhile,
    dropWhile_rdropWhile_dropWhile, List.rdropWhile_idempotent]

/-- Every token a scan step adds is whitespace-trimmed. -/
theorem scanStep_tokens_mem (st : ScanState) (c : Char) :
    ∀ tk ∈ (scanStep st c).tokens,
      tk ∈ st.tokens ∨ tokContent tk = rustTrim (tokContent tk) := by
  intro tk htk
  rw [scanStep] at htk
  unfold flushWordOrTag at htk
  split_ifs at htk <;>
    first
      | exact Or.inl htk
      | exact Or.inl (by simpa using htk)
      | (simp only [List.mem_append, List.mem_singleton] at htk
         rcases htk with h | h
         · exact Or.inl h
         · right; subst h; simp [tokContent, rustTrim_idem])

/-- Every token emitted during the scan is whitespace-trimmed. -/
theorem scan_tokens_trimmed (s : Str) :
    ∀ tk ∈ (scan s).tokens, tokContent tk = rustTrim (tokContent tk) := by
  suffices h : ∀ (l : Str) (st : ScanState),
      (∀ tk ∈ st.tokens, tokContent tk = rustTrim (tokContent tk)) →
      ∀ tk ∈ (l.foldl scanStep st).tokens, tokContent tk = rustTrim (tokContent tk) by
    exact h s ScanState.init (by simp [ScanState.init])
  intro l
  induction l with
  | nil => intro st hst; exact hst
  | cons c cs ih =>
      intro st hst
      refine ih (scanStep st c) ?_
      intro tk htk
      rcases scanStep_tokens_mem st c tk htk with h | h
      · exact hst tk h
      · exact h

/-- Every token the tokenizer emits is whitespace-trimmed. -/
theorem tokenize_tokens_trimmed (s : Str) :
    ∀ tk ∈ tokenize s, tokContent tk = rustTrim (tokContent tk) := by
  intro tk htk
  rw [tokenize] at htk
  split at htk
  · exact scan_tokens_trimmed s tk htk
  · split at htk
    · rcases List.mem_append.1 htk with h | h
      · exact scan_tokens_trimmed s tk h
      · simp only [List.mem_singleton] at h
        simp [h, tokContent, rustTrim_idem]
    · split at htk
      · split at htk
        · rcases List.mem_append.1 htk with h | h
          · exact scan_tokens_trimmed s tk h
          · simp only [List.mem_singleton] at h
            simp [h, tokContent, rustTrim_idem]
        · exact scan_tokens_trimmed s tk htk
      · rcases List.mem_append.1 htk with h | h
        · exact scan_tokens_trimmed s tk h
        · simp only [List.mem_singleton] at h
          simp [h, tokContent, rustTrim_idem]

/-- C10 (amended): every term `parse` emits is whitespace-trimmed — in
particular quoted phrases are trimmed on both the closing-quote path and
the unterminated-quote path — but a quoted span of only whitespace emits
the empty `Phrase` rather than no token. -/
theorem C10_phrase_trimming (s : Str) :
    (∀ t ∈ (parse s).general_terms, termContent t = rustTrim (termContent t))
    ∧ (parse "\x22  web dev  \x22".data).general_terms = [.Phrase "web dev".data]
    ∧ (parse "\x22  web dev".data).general_terms = [.Phrase "web dev".data]
    ∧ (parse "\x22 \x22".data).general_terms = [.Phrase []] := by
  refine ⟨?_, by decide, by decide, by decide⟩
  intro t ht
  rw [parse] at ht
  split at ht
  · simp [SearchQuery.new] at ht
  · simp only [List.mem_filterMap] at ht
    obtain ⟨tk, htk, hmap⟩ := ht
    have := tokenize_tokens_trimmed s tk htk
    cases tk with
    | Word w =>
        rw [termOfToken] at hmap
        split at hmap
        · exact absurd hmap (by simp)
        · cases hmap
          simpa [tokContent, termContent] using this
    | Phrase p =>
        cases hmap
        simpa [tokContent, termContent] using this
    | Tag t2 => exact absurd hmap (by simp [termOfToken])

/-- C10 witness: a concrete emitted term is its own trim. -/
theorem C10_phrase_trimming_witness :
    termContent (SearchTerm.Word "x".data) =
      rustTrim (termContent (SearchTerm.Word "x".data)) :=
  (C10_phrase_trimming "x".data).1 (SearchTerm.Word "x".data) (by decide)

/-! ### Lemmas and theorems for the executor claims C4, C5, C9 -/

/-- With general terms and tag filters both present, the executor is the
in-memory tag post-filter applied to the base strategy's output. -/
theorem searchAdvanced_eq_filter (db : Db) (u : Nat) (q : SearchQuery) (l o : Nat)
    (h1 : q.general_terms ≠ []) (h2 : q.tag_filters ≠ []) :
    searchAdvanced db u q l o =
      filter_bookmarks_by_tags (baseStrategy db u q l o) q.tag_filters := by
  rw [searchAdvanced]
  simp [SearchQuery.isEmptyQ, h1, h2]

/-- C5: with at least one general term and non-empty tag filters, the
result retains exactly the base-strategy items whose tag-name set
fuzzy-contains (case-insensitive substring) every filter string — the
filters are AND-ed regardless of the query's Or/And logic, each
satisfied by any one associated tag name. -/
theorem C5_tag_postfilter (db : Db) (u : Nat) (q : SearchQuery) (l o : Nat)
    (h1 : q.general_terms ≠ []) (h2 : q.tag_filters ≠ []) :
    searchAdvanced db u q l o = filter_bookmarks_by_tags (baseStrategy db u q l o) q.tag_filters
    ∧ ∀ b, b ∈ searchAdvanced db u q l o ↔
        (b ∈ baseStrategy db u q l o ∧
          ∀ ft ∈ q.tag_filters, ∃ tn ∈ b.tags, isSubstr (lowerStr ft) (lowerStr tn) = true) := by
  refine ⟨searchAdvanced_eq_filter db u q l o h1 h2, ?_⟩
  intro b
  rw [searchAdvanced_eq_filter db u q l o h1 h2, filter_bookmarks_by_tags, if_neg h2]
  simp [List.mem_filter, List.all_eq_true, List.any_eq_true]

/-- C5 witness at a concrete database and query. -/
theorem C5_tag_postfilter_witness :
    searchAdvanced exPageDb 1 exPageQuery 1 0 =
      filter_bookmarks_by_tags (baseStrategy exPageDb 1 exPageQuery 1 0)
        exPageQuery.tag_filters :=
  (C5_tag_postfilter exPageDb 1 exPageQuery 1 0 (by decide) (by decide)).1

/-- C9: the base strategy paginates before the in-memory tag filter
runs, so the final result is an order-preserving subsequence of the
truncated page; concretely, with limit 1 the query "rust #prog" returns
nothing on `exPageDb` even though one stored item satisfies both the
term and the tag filter. -/
theorem C9_pagination_before_postfilter (db : Db) (u : Nat) (q : SearchQuery) (l o : Nat)
    (h1 : q.general_terms ≠ []) (h2 : q.tag_filters ≠ []) :
    List.Sublist (searchAdvanced db u q l o) (baseStrategy db u q l o)
    ∧ (searchAdvanced exPageDb 1 exPageQuery 1 0).length = 0
    ∧ ((ownerRows exPageDb 1).filter (fun b =>
          termMatches exPageDb b (.Word "rust".data) &&
          (rawTagNames exPageDb b.bookmark_id).any
            (fun tn => isSubstr (lowerStr "prog".data) (lowerStr tn)))).length = 1 := by
  refine ⟨?_, by decide, by decide⟩
  rw [searchAdvanced_eq_filter db u q l o h1 h2, filter_bookmarks_by_tags, if_neg h2]
  exact List.filter_sublist _

/-- C9 witness at a concrete database and query. -/
theorem C9_pagination_before_postfilter_witness :
    List.Sublist (searchAdvanced exPageDb 1 exPageQuery 1 0)
      (baseStrategy exPageDb 1 exPageQuery 1 0) :=
  (C9_pagination_before_postfilter exPageDb 1 exPageQuery 1 0 (by decide) (by decide)).1

/-- A query with three words and Or logic, exercising the fallback. -/
def exOrQuery : SearchQuery :=
  { general_terms := [.Word "a".data, .Word "b".data, .Word "c".data],
    tag_filters := [], logic := .Or }

/-- C4: with Or logic and three or more general terms (or any other
shape not covered by the listed strategies, i.e. And with one term), the
executor joins all term displays with single spaces and runs the legacy
single-term wildcard search on the joined string. -/
theorem C4_or_fallback_joined (db : Db) (u : Nat) (q : SearchQuery) (l o : Nat)
    (h : (q.logic = .Or ∧ 3 ≤ q.general_terms.length) ∨
         (q.logic = .And ∧ q.general_terms.length = 1))
    (htf : q.tag_filters = []) :
    searchAdvanced db u q l o =
      searchUserBookmarks db u (List.intercalate [' '] (q.general_terms.map termDisplay)) l o := by
  obtain ⟨ts, tf, lg⟩ := q
  simp only at h htf ⊢
  subst htf
  have hne : ts ≠ [] := by
    rcases h with ⟨_, h3⟩ | ⟨_, h3⟩ <;> (intro hh; subst hh; simp at h3)
  rw [searchAdvanced]
  simp only [SearchQuery.isEmptyQ]
  rcases h with ⟨hlg, h3⟩ | ⟨hlg, h3⟩
  · subst hlg
    rcases ts with _ | ⟨a, _ | ⟨b, _ | ⟨c, rest⟩⟩⟩ <;> simp_all [baseStrategy, joinedTerms]
  · subst hlg
    rcases ts with _ | ⟨a, _ | ⟨b, rest⟩⟩ <;> simp_all [baseStrategy, joinedTerms]

/-- C4 witness at a concrete database and three-word Or query. -/
theorem C4_or_fallback_joined_witness :
    searchAdvanced exPageDb 1 exOrQuery 5 0 =
      searchUserBookmarks exPageDb 1
        (List.intercalate [' '] (exOrQuery.general_terms.map termDisplay)) 5 0 :=
  C4_or_fallback_joined exPageDb 1 exOrQuery 5 0 (by decide) (by decide)

/-! ### Lemmas and theorem for C6 (multi-tag count-threshold search) -/

/-- Membership in the `group by / having` subquery is exactly the
per-bookmark distinct-matched-tag count reaching the threshold. -/
theorem mem_qualifyingIds (db : Db) (pats : List Str) (n : Nat) (hn : 1 ≤ n) (bid : Nat) :
    bid ∈ qualifyingIds db pats n ↔ n ≤ distinctMatchedCount db pats bid := by
  rw [qualifyingIds]
  simp only [List.mem_filter, List.mem_dedup, decide_eq_true_iff]
  constructor
  · rintro ⟨-, h⟩
    exact h
  · intro h
    refine ⟨?_, h⟩
    have hpos : 0 < distinctMatchedCount db pats bid := lt_of_lt_of_le hn h
    rw [distinctMatchedCount] at hpos
    have hmapped : ((matchedJoinRows db pats).filter (fun r => decide (r.1 = bid))).map (·.2) ≠ [] := by
      intro hnil
      simp [hnil] at hpos
    have hfil : (matchedJoinRows db pats).filter (fun r => decide (r.1 = bid)) ≠ [] := by
      intro hnil
      simp [hnil] at hmapped
    obtain ⟨r, hr⟩ := List.exists_mem_of_ne_nil _ hfil
    have hr2 := List.mem_filter.mp hr
    exact List.mem_map.mpr ⟨r, hr2.1, by simpa using hr2.2⟩

/-- C6: a tag-only query with `N >= 2` filters returns the owner's
unarchived items whose count of distinct associated tag ids matching at
least one filter pattern reaches `N`, ordered by creation time
descending with limit/offset — a count-threshold approximation:
concretely, `exTagDb`'s only item is returned for filters ["p", "q"]
even though none of its tags contains "p". -/
theorem C6_multi_tag_count_threshold (db : Db) (u : Nat) (pats : List Str) (l o : Nat)
    (h : 2 ≤ pats.length) :
    searchByTagsOnly db u pats l o =
      buildBookmarkResults db (paginate l o (sortByCreatedDesc
        ((ownerRows db u).filter
          (fun b => decide (pats.length ≤ distinctMatchedCount db pats b.bookmark_id)))))
    ∧ (searchByTagsOnly exTagDb 1 ["p".data, "q".data] 10 0).map (·.bookmark_id) = [1]
    ∧ ((rawTagNames exTagDb 1).any
        (fun tn => isSubstr (lowerStr "p".data) (lowerStr tn))) = false := by
  refine ⟨?_, by decide, by decide⟩
  rcases pats with _ | ⟨p1, _ | ⟨p2, rest⟩⟩
  · simp at h
  · simp at h
  · simp only [searchByTagsOnly]
    have hc : ∀ b ∈ ownerRows db u,
        decide (b.bookmark_id ∈ qualifyingIds db (p1 :: p2 :: rest) (p1 :: p2 :: rest).length) =
        decide ((p1 :: p2 :: rest).length ≤
          distinctMatchedCount db (p1 :: p2 :: rest) b.bookmark_id) := by
      intro b _
      exact decide_eq_decide.mpr
        (mem_qualifyingIds db (p1 :: p2 :: rest) (p1 :: p2 :: rest).length (by simp) b.bookmark_id)
    rw [List.filter_congr hc]

/-- C6 witness at the concrete database and filters. -/
theorem C6_multi_tag_count_threshold_witness :
    (searchByTagsOnly exTagDb 1 ["p".data, "q".data] 10 0).map (·.bookmark_id) = [1] :=
  (C6_multi_tag_count_threshold exTagDb 1 ["p".data, "q".data] 10 0 (by decide)).2.1

end PagePouch
